import Mathlib

/-
  Verification of the Item FFI module (src/complex/cargo/list/src/items.rs).

  The embedding is shallow: each Rust entry point becomes a Lean function on
  an explicit Item value, and the entry points that allocate or free heap
  storage become functions on an explicit heap State.  Pointers are modelled
  as natural-number addresses, with address 0 playing the role of the null
  pointer.  Machine integers are modelled as Int with explicit reduction
  modulo 2 ^ 64 (usize / i64 casts) and 2 ^ 32 (the c_int cast).
-/

namespace Items

/-- The external Label type (crate labels). Opaque to this module: it is only
cloned and stored, so it is modelled as a wrapped tag value. -/
structure Label where
  tag : Nat
deriving DecidableEq, Repr

/-- Rust Clone for Label: produces an equal, independently owned value. -/
def Label.clone (l : Label) : Label := l

/-- time 0.1 Timespec: seconds and nanoseconds fields. -/
structure Timespec where
  sec : Int
  nsec : Int
deriving DecidableEq, Repr

/-- Timespec::new(sec, nsec) stores both components verbatim. -/
def Timespec.new (sec : Int) (nsec : Int) : Timespec := ⟨sec, nsec⟩

/-- The Item record (items.rs lines 28-35). -/
structure Item where
  uuid : String
  name : String
  due_date : Option Timespec
  completion_date : Option Timespec
  labels : List Label
deriving DecidableEq, Repr

/-- new_item (items.rs lines 43-51): all fields at their defaults. -/
def new_item : Item :=
  { uuid := ""
    name := ""
    due_date := none
    completion_date := none
    labels := [] }

/-- Modelled from the spec: the argument a foreign caller passes where the
code expects a pointer to a C string.  The string-encoding bridge
(ffi_utils::strings, a collaborator outside this module) either decodes the
buffer to a host string or fails to decode it; the spec fixes the fallback
on decode failure to the empty string. -/
inductive CCharArg where
  | decodes (s : String)
  | malformed
deriving DecidableEq, Repr

/-- Modelled from the spec: c_char_to_string (ffi_utils::strings, not under
src/) decodes the C string, falling back to the empty string when the buffer
cannot be decoded. -/
def c_char_to_string : CCharArg → String
  | .decodes s => s
  | .malformed => ""

/-- Modelled from the spec: to_string (ffi_utils::strings, not under src/)
is the same string-decoding bridge with the same empty-string fallback. -/
def to_string : CCharArg → String
  | .decodes s => s
  | .malformed => ""

/-- Modelled from the spec: string_to_c_char (ffi_utils::strings, not under
src/) exports a fresh copy of a native string to the caller; copying does
not change the value. -/
def string_to_c_char (s : String) : String := s

/-- Reinterpretation of a usize/pointer value as a signed 64 bit integer,
as performed by the Rust cast (p as i64). -/
def ptrToI64 (p : Nat) : Int :=
  if p % 2 ^ 64 < 2 ^ 63 then ((p % 2 ^ 64 : Nat) : Int)
  else ((p % 2 ^ 64 : Nat) : Int) - 2 ^ 64

/-- The address a caller must use to transmit the signed 64 bit value t in
the pointer argument of the date setters (the inverse of ptrToI64 on the
representable range). -/
def encodeTs (t : Int) : Nat := (t % 2 ^ 64).toNat

/-- The Rust cast (n as c_int): usize reduced to a signed 32 bit integer. -/
def i32cast (n : Nat) : Int :=
  if n % 2 ^ 32 < 2 ^ 31 then ((n % 2 ^ 32 : Nat) : Int)
  else ((n % 2 ^ 32 : Nat) : Int) - 2 ^ 32

/-- item_get_name (items.rs lines 76-79): string_to_c_char(item.name.clone()),
a fresh copy of the name field. -/
def item_get_name (item : Item) : String :=
  string_to_c_char item.name

/-- item_set_name (items.rs lines 82-85): item.name = c_char_to_string(name). -/
def item_set_name (item : Item) (name : CCharArg) : Item :=
  { item with name := c_char_to_string name }

/-- a_item_set_name (items.rs lines 88-92): item.name = to_string(name); the
surrounding log calls are the fire-and-forget diagnostic sink and have no
state effect. -/
def a_item_set_name (item : Item) (name : CCharArg) : Item :=
  { item with name := to_string name }

/-- item_get_due_date (items.rs lines 95-108): returns a boxed copy of the
seconds component when the date is present, the null pointer when absent.
The returned pointer-or-null is modelled as Option Int (none = null). -/
def item_get_due_date (item : Item) : Option Int :=
  item.due_date.map Timespec.sec

/-- item_set_due_date (items.rs lines 111-120).  The argument is a pointer
(address ptr) into the callers memory mem; the body tests the pointer
against null and then casts the POINTER VALUE itself to i64
(Timespec::new(due_date as i64, 0)).  The pointed-to memory mem is in scope
exactly as it is for the C function, and is never read. -/
def item_set_due_date (item : Item) (ptr : Nat) (mem : Nat → Int) : Item :=
  if ptr ≠ 0 then { item with due_date := some (Timespec.new (ptrToI64 ptr) 0) }
  else { item with due_date := none }

/-- a_item_set_due_date (items.rs lines 123-131): same body as
item_set_due_date, the item arriving as a borrowed reference instead of a
raw pointer. -/
def a_item_set_due_date (item : Item) (ptr : Nat) (mem : Nat → Int) : Item :=
  if ptr ≠ 0 then { item with due_date := some (Timespec.new (ptrToI64 ptr) 0) }
  else { item with due_date := none }

/-- item_get_completion_date (items.rs lines 134-147): same contract as
item_get_due_date, on the completion_date field. -/
def item_get_completion_date (item : Item) : Option Int :=
  item.completion_date.map Timespec.sec

/-- item_set_completion_date (items.rs lines 150-157): same pointer-cast
body as item_set_due_date, on the completion_date field. -/
def item_set_completion_date (item : Item) (ptr : Nat) (mem : Nat → Int) : Item :=
  if ptr ≠ 0 then { item with completion_date := some (Timespec.new (ptrToI64 ptr) 0) }
  else { item with completion_date := none }

/-- A heap cell: the module hands out raw pointers to boxed Items, boxed
Vec of Label (from item_get_labels) and boxed Labels (from item_label_at),
so the heap stores these three kinds of allocations. -/
inductive Cell where
  | item (it : Item)
  | vec (ls : List Label)
  | label (l : Label)
deriving DecidableEq, Repr

/-- The heap: contents of every address, plus the next fresh address.
Address 0 is the null pointer and is never handed out. -/
structure State where
  mem : Nat → Option Cell
  next : Nat

/-- Well-formedness of a heap: the null address is positive and every
address at or beyond next is unallocated (so fresh allocations are really
fresh). -/
def State.WF (σ : State) : Prop :=
  0 < σ.next ∧ ∀ a, σ.next ≤ a → σ.mem a = none

/-- Box::new followed by Box::into_raw: place a value in a fresh heap cell
and hand its address to the caller. -/
def alloc (σ : State) (c : Cell) : Nat × State :=
  (σ.next, ⟨fun a => if a = σ.next then some c else σ.mem a, σ.next + 1⟩)

/-- item_new (items.rs lines 54-58): box new_item and transfer ownership of
the allocation to the caller as a raw handle.  Total: no failure mode. -/
def item_new (σ : State) : Nat × State :=
  alloc σ (.item new_item)

/-- a_item_new (items.rs lines 67-69): return the owned boxed Item directly;
the host runtime, not a destroy call, releases it. -/
def a_item_new : Item := new_item

/-- item_destroy (items.rs lines 61-63): Box::from_raw(item) with no null
check, then drop.  On the null pointer, Box::from_raw violates its safety
contract and the Drop impl dereferences null to print the item: undefined
behavior, modelled as none.  On a live Item handle the allocation is
released; on any other address (freed, foreign, or a cell of another type)
the behavior is likewise undefined. -/
def item_destroy (p : Nat) (σ : State) : Option State :=
  if p = 0 then none
  else match σ.mem p with
    | some (.item _) => some ⟨fun a => if a = p then none else σ.mem a, σ.next⟩
    | _ => none

/-- item_get_labels (items.rs lines 160-164): clone the label vector of the
item behind the handle, box the clone, and hand the caller the fresh
address.  Dereferencing an address that does not hold an Item is undefined
behavior (none). -/
def item_get_labels (p : Nat) (σ : State) : Option (Nat × State) :=
  match σ.mem p with
  | some (.item it) => some (alloc σ (.vec (it.labels.map Label.clone)))
  | _ => none

/-- item_labels_count (items.rs lines 167-170): the parameter is a pointer
to Item, not a label-sequence handle — the function dereferences the
address as an Item and returns item.labels.len() as c_int.  Reading a cell of any other
type (for example the Vec cell produced by item_get_labels) as an Item is a
type-confused dereference: undefined behavior, modelled as none. -/
def item_labels_count (p : Nat) (σ : State) : Option Int :=
  match σ.mem p with
  | some (.item it) => some (i32cast it.labels.length)
  | _ => none

/-- item_label_at (items.rs lines 173-178): dereference the address as a
Vec of Label, index it (the Rust Vec index operation panics when the index
is out of bounds — modelled as none, never a value), clone the element,
box the clone and return the fresh address. -/
def item_label_at (p : Nat) (index : Nat) (σ : State) : Option (Nat × State) :=
  match σ.mem p with
  | some (.vec ls) =>
      match ls[index]? with
      | some l => some (alloc σ (.label (Label.clone l)))
      | none => none
  | _ => none

/-- Caller-side mutation of a label-sequence handle: the host, which owns
the sequence returned by item_get_labels, overwrites its contents by
applying f.  Not a function of this module; it models the "mutating the
returned sequence" step of the defensive-copy property. -/
def writeVec (v : Nat) (f : List Label → List Label) (σ : State) : State :=
  match σ.mem v with
  | some (.vec ls) => ⟨fun a => if a = v then some (.vec (f ls)) else σ.mem a, σ.next⟩
  | _ => σ

/-- A sample label for the concrete witness states. -/
def labelA : Label := ⟨5⟩

/-- A sample item carrying one label. -/
def itemW : Item := { new_item with labels := [labelA] }

/-- A concrete well-formed heap holding itemW at address 1. -/
def itemState : State := ⟨fun a => if a = 1 then some (.item itemW) else none, 2⟩

/-- A concrete heap holding a one-element label sequence at address 1. -/
def seqState : State := ⟨fun a => if a = 1 then some (.vec [labelA]) else none, 2⟩

theorem itemState_wf : State.WF itemState := by
  refine ⟨by decide, ?_⟩
  intro a ha
  have h2 : 2 ≤ a := ha
  simp only [itemState]
  rw [if_neg]
  omega

/-- The pointer encoding of a representable signed 64 bit value decodes back
to that value under the cast the date setters perform. -/
theorem encode_decode (t : Int) (h1 : -(2 ^ 63) ≤ t) (h2 : t < 2 ^ 63) :
    ptrToI64 (encodeTs t) = t := by
  unfold ptrToI64 encodeTs
  split <;> omega

/-- The pointer encoding of a nonzero representable value is a non-null
address. -/
theorem encode_ne_zero (t : Int) (h1 : -(2 ^ 63) ≤ t) (h2 : t < 2 ^ 63)
    (h0 : t ≠ 0) : encodeTs t ≠ 0 := by
  unfold encodeTs
  omega

/-- The c_int cast is the identity below 2 ^ 31. -/
theorem i32cast_small (n : Nat) (h : n < 2 ^ 31) : i32cast n = (n : Int) := by
  unfold i32cast
  split <;> omega

/-- C1 counterexample: the claim asserts the round trip observes every
timestamp including zero, but the wire encoding makes timestamp 0 the null
pointer, so set_due_date with t = 0 clears the field and get_due_date
observes the absent sentinel, not 0. -/
theorem due_date_roundtrip_zero_cex :
    item_get_due_date (item_set_due_date new_item (encodeTs 0) (fun _ => 0)) = none ∧
    item_get_due_date (item_set_due_date new_item (encodeTs 0) (fun _ => 0)) ≠ some 0 := by
  constructor <;> decide

/-- C1 (amended): for every nonzero timestamp t representable as a signed
64 bit integer, set_due_date followed by get_due_date observes t and the
stored date has sub-second component zero; setting the absent sentinel
(the null pointer) and reading observes absent.  The same holds for the
completion date pair.  For t = 0 the encoding coincides with the absent
sentinel and the read observes absent (see the counterexample). -/
theorem date_roundtrip (item : Item) (mem : Nat → Int) (t : Int)
    (h1 : -(2 ^ 63) ≤ t) (h2 : t < 2 ^ 63) (h0 : t ≠ 0) :
    item_get_due_date (item_set_due_date item (encodeTs t) mem) = some t ∧
    (item_set_due_date item (encodeTs t) mem).due_date = some (Timespec.new t 0) ∧
    item_get_due_date (item_set_due_date item 0 mem) = none ∧
    item_get_completion_date (item_set_completion_date item (encodeTs t) mem) = some t ∧
    (item_set_completion_date item (encodeTs t) mem).completion_date = some (Timespec.new t 0) ∧
    item_get_completion_date (item_set_completion_date item 0 mem) = none := by
  have hne := encode_ne_zero t h1 h2 h0
  have hdec := encode_decode t h1 h2
  refine ⟨?_, ?_, ?_, ?_, ?_, ?_⟩ <;>
    simp [item_get_due_date, item_set_due_date, item_get_completion_date,
      item_set_completion_date, hne, hdec, Timespec.new]

theorem date_roundtrip_witness :
    (-(2 ^ 63) ≤ (-5 : Int)) ∧ ((-5 : Int) < 2 ^ 63) ∧ ((-5 : Int) ≠ 0) ∧
    (item_get_due_date (item_set_due_date new_item (encodeTs (-5)) (fun _ => 0)) = some (-5) ∧
    (item_set_due_date new_item (encodeTs (-5)) (fun _ => 0)).due_date = some (Timespec.new (-5) 0) ∧
    item_get_due_date (item_set_due_date new_item 0 (fun _ => 0)) = none ∧
    item_get_completion_date (item_set_completion_date new_item (encodeTs (-5)) (fun _ => 0)) = some (-5) ∧
    (item_set_completion_date new_item (encodeTs (-5)) (fun _ => 0)).completion_date = some (Timespec.new (-5) 0) ∧
    item_get_completion_date (item_set_completion_date new_item 0 (fun _ => 0)) = none) :=
  ⟨by decide, by decide, by decide,
    date_roundtrip new_item (fun _ => 0) (-5) (by decide) (by decide) (by decide)⟩

/-- C2: on a label-sequence handle holding ls, item_label_at returns, for
every in-range index, a fresh independently owned copy equal to the element
at that index, and for every out-of-range index it faults (the Rust Vec
index panic, modelled as none) rather than returning any label value. -/
theorem label_at_bounds (σ : State) (seq : Nat) (ls : List Label)
    (hseq : σ.mem seq = some (.vec ls)) :
    (∀ i l, ls[i]? = some l →
      ∃ q σ₂, item_label_at seq i σ = some (q, σ₂) ∧ σ₂.mem q = some (.label l)) ∧
    (∀ i, ls.length ≤ i → item_label_at seq i σ = none) := by
  constructor
  · intro i l hl
    refine ⟨σ.next, (alloc σ (.label (Label.clone l))).2, ?_, ?_⟩
    · simp [item_label_at, hseq, hl, alloc]
    · simp [alloc, Label.clone]
  · intro i hi
    simp [item_label_at, hseq, List.getElem?_eq_none hi]

theorem label_at_bounds_witness :
    seqState.mem 1 = some (.vec [labelA]) ∧
    (∃ q σ₂, item_label_at 1 0 seqState = some (q, σ₂) ∧
      σ₂.mem q = some (.label labelA)) ∧
    item_label_at 1 1 seqState = none :=
  ⟨rfl, (label_at_bounds seqState 1 [labelA] rfl).1 0 labelA rfl,
    (label_at_bounds seqState 1 [labelA] rfl).2 1 (by decide)⟩

/-- C3: the claim says destroying the null handle is a safe no-op, but the
code passes the pointer to Box::from_raw with no null check and the Drop
impl dereferences it, which on null is undefined behavior: the model faults
(returns none, never an unchanged state). -/
theorem destroy_null_faults (σ : State) : item_destroy 0 σ = none := by
  simp [item_destroy]

/-- C4: item_new allocates a cell holding exactly new_item, whose fields
are the documented defaults (empty uuid, empty name, absent dates, empty
label sequence); being a total function it has no failure mode and no
partially initialized state. -/
theorem item_new_defaults (σ : State) :
    (item_new σ).2.mem (item_new σ).1 = some (.item new_item) ∧
    new_item.uuid = "" ∧ new_item.name = "" ∧ new_item.due_date = none ∧
    new_item.completion_date = none ∧ new_item.labels = [] := by
  refine ⟨?_, rfl, rfl, rfl, rfl, rfl⟩
  simp [item_new, alloc]

/-- C5: set_name followed by get_name observes the string when it decodes,
and the empty-string fallback when decoding fails; get_name is total and on
a fresh item returns the empty string. -/
theorem name_roundtrip (item : Item) (s : String) :
    item_get_name (item_set_name item (CCharArg.decodes s)) = s ∧
    item_get_name (item_set_name item CCharArg.malformed) = "" ∧
    item_get_name new_item = "" := by
  refine ⟨rfl, rfl, rfl⟩

/-- C6: the due-date setter changes only the due_date field and the
completion-date setter changes only the completion_date field; in
particular each leaves the other date unchanged, for every pointer
argument including null. -/
theorem date_setters_frame (item : Item) (p : Nat) (mem : Nat → Int) :
    (item_set_due_date item p mem).uuid = item.uuid ∧
    (item_set_due_date item p mem).name = item.name ∧
    (item_set_due_date item p mem).completion_date = item.completion_date ∧
    (item_set_due_date item p mem).labels = item.labels ∧
    (item_set_completion_date item p mem).uuid = item.uuid ∧
    (item_set_completion_date item p mem).name = item.name ∧
    (item_set_completion_date item p mem).due_date = item.due_date ∧
    (item_set_completion_date item p mem).labels = item.labels ∧
    item_get_completion_date (item_set_due_date item p mem) =
      item_get_completion_date item ∧
    item_get_due_date (item_set_completion_date item p mem) =
      item_get_due_date item := by
  unfold item_set_due_date item_set_completion_date
    item_get_due_date item_get_completion_date
  split <;> simp

/-- C7: item_get_labels hands the caller a fresh handle, distinct from the
item handle, holding a clone of the label list; after the caller mutates
the returned sequence arbitrarily, the item is unchanged and a second
item_get_labels call returns the same contents as the first. -/
theorem get_labels_defensive_copy (σ : State) (h : Nat) (it : Item)
    (hWF : State.WF σ) (hmem : σ.mem h = some (.item it))
    (f : List Label → List Label) :
    ∃ v σ₁, item_get_labels h σ = some (v, σ₁) ∧ v ≠ h ∧
      σ₁.mem v = some (.vec (it.labels.map Label.clone)) ∧
      (writeVec v f σ₁).mem h = some (.item it) ∧
      ∃ v₂ σ₂, item_get_labels h (writeVec v f σ₁) = some (v₂, σ₂) ∧
        σ₂.mem v₂ = some (.vec (it.labels.map Label.clone)) := by
  have hlt : h < σ.next := by
    by_contra hc
    rw [hWF.2 h (Nat.le_of_not_lt hc)] at hmem
    exact Option.noConfusion hmem
  have hvh : σ.next ≠ h := Nat.ne_of_gt hlt
  refine ⟨σ.next, (alloc σ (.vec (it.labels.map Label.clone))).2, ?_, hvh, ?_, ?_, ?_⟩
  · simp [item_get_labels, hmem, alloc]
  · simp [alloc]
  · simp [writeVec, alloc, hvh, Ne.symm hvh, hmem]
  · refine ⟨σ.next + 1,
      (alloc (writeVec σ.next f (alloc σ (.vec (it.labels.map Label.clone))).2)
        (.vec (it.labels.map Label.clone))).2, ?_, ?_⟩
    · simp [item_get_labels, writeVec, alloc, hvh, Ne.symm hvh, hmem]
    · simp [writeVec, alloc, hvh, Ne.symm hvh, hmem]

theorem get_labels_defensive_copy_witness :
    State.WF itemState ∧ itemState.mem 1 = some (.item itemW) ∧
    (∃ v σ₁, item_get_labels 1 itemState = some (v, σ₁) ∧ v ≠ 1 ∧
      σ₁.mem v = some (.vec (itemW.labels.map Label.clone)) ∧
      (writeVec v (fun _ => []) σ₁).mem 1 = some (.item itemW) ∧
      ∃ v₂ σ₂, item_get_labels 1 (writeVec v (fun _ => []) σ₁) = some (v₂, σ₂) ∧
        σ₂.mem v₂ = some (.vec (itemW.labels.map Label.clone))) :=
  ⟨itemState_wf, rfl,
    get_labels_defensive_copy itemState 1 itemW itemState_wf rfl (fun _ => [])⟩

/-- C8: the automatic-lifetime entry points are functionally identical to
the primary handle family: a_item_new is the same initial item that
item_new boxes, a_item_set_name produces the same item state as
item_set_name, and a_item_set_due_date produces the same item state as
item_set_due_date. -/
theorem alternate_family_equiv :
    (∀ σ : State, (item_new σ).2.mem (item_new σ).1 = some (.item a_item_new)) ∧
    (∀ (item : Item) (name : CCharArg),
      a_item_set_name item name = item_set_name item name) ∧
    (∀ (item : Item) (p : Nat) (mem : Nat → Int),
      a_item_set_due_date item p mem = item_set_due_date item p mem) := by
  refine ⟨?_, ?_, ?_⟩
  · intro σ
    simp [item_new, alloc, a_item_new]
  · intro item name
    cases name <;> rfl
  · intro item p mem
    rfl

/-- C9 counterexample: the claim applies labels_count to the sequence
handle produced by get_labels, but the code dereferences its argument as
an Item; on the sequence handle (which holds a one-element Vec cell) that
is a type-confused dereference, modelled as a fault (none) — it does not
return the element count 1. -/
theorem labels_count_seq_handle_cex :
    ∃ v σ₁, item_get_labels 1 itemState = some (v, σ₁) ∧
      σ₁.mem v = some (.vec [labelA]) ∧
      item_labels_count v σ₁ = none ∧ item_labels_count v σ₁ ≠ some 1 :=
  ⟨2, _, rfl, rfl, rfl, by decide⟩

/-- C9 (amended): labels_count takes the item handle, not the sequence
handle; applied to the item handle it returns the label count of the item (as a
32 bit integer), which equals the number of elements the sequence produced
by get_labels from that item was constructed with. -/
theorem labels_count_item_handle (σ : State) (h : Nat) (it : Item)
    (hmem : σ.mem h = some (.item it)) (hlen : it.labels.length < 2 ^ 31) :
    item_labels_count h σ = some (it.labels.length : Int) ∧
    ∃ v σ₁, item_get_labels h σ = some (v, σ₁) ∧
      σ₁.mem v = some (.vec (it.labels.map Label.clone)) ∧
      (it.labels.map Label.clone).length = it.labels.length := by
  refine ⟨?_, σ.next, (alloc σ (.vec (it.labels.map Label.clone))).2, ?_, ?_, ?_⟩
  · simp [item_labels_count, hmem, i32cast_small _ hlen]
  · simp [item_get_labels, hmem, alloc]
  · simp [alloc]
  · simp

theorem labels_count_item_handle_witness :
    itemState.mem 1 = some (.item itemW) ∧ itemW.labels.length < 2 ^ 31 ∧
    (item_labels_count 1 itemState = some (itemW.labels.length : Int) ∧
    ∃ v σ₁, item_get_labels 1 itemState = some (v, σ₁) ∧
      σ₁.mem v = some (.vec (itemW.labels.map Label.clone)) ∧
      (itemW.labels.map Label.clone).length = itemW.labels.length) :=
  ⟨rfl, by decide,
    labels_count_item_handle itemState 1 itemW rfl (by decide)⟩

/-- C10: the date setters never read the memory their pointer argument
points to — the resulting item is the same for every memory contents — and
the stored seconds value is the pointer value itself reinterpreted as a
signed 64 bit integer when the pointer is non-null, the field being
cleared when it is null. -/
theorem date_setter_ignores_pointee (item : Item) (p : Nat)
    (mem mem2 : Nat → Int) :
    item_set_due_date item p mem = item_set_due_date item p mem2 ∧
    item_set_completion_date item p mem = item_set_completion_date item p mem2 ∧
    a_item_set_due_date item p mem = a_item_set_due_date item p mem2 ∧
    (item_set_due_date item p mem).due_date =
      (if p ≠ 0 then some (Timespec.new (ptrToI64 p) 0) else none) ∧
    (item_set_completion_date item p mem).completion_date =
      (if p ≠ 0 then some (Timespec.new (ptrToI64 p) 0) else none) ∧
    (a_item_set_due_date item p mem).due_date =
      (if p ≠ 0 then some (Timespec.new (ptrToI64 p) 0) else none) := by
  unfold item_set_due_date item_set_completion_date a_item_set_due_date
  split <;> simp

end Items
